import Mathlib

/-!
Verification of the Overcooked-AI generalization evaluation notebook (`demo.ipynb`).

The notebook drives three evaluation passes over layouts of a cooperative cooking
task: a single-layout greedy check, a greedy sweep over `test_layouts`, and a
sampling sweep that repeats `evaluate_policy` `N_RUNS` times per layout and
reports `np.mean` / `np.std` of the collected rewards.

This file shallowly embeds the notebook's control flow and arithmetic:
rewards are `ℚ` (the statistics of interest are exact rationals), the external
collaborators (`GeneralizedOvercooked`, `PPOAgent`, `evaluate_policy`,
`load_weights`) are represented by their interfaces as the notebook uses them,
and the sequencing of constructor / weight-loading / episode calls is made
explicit as an event trace.
-/

/- ### Statistics (the sampling cell's `np.mean` / `np.std`) -/

/-- `np.mean(rewards)`: the arithmetic mean, sum divided by the number of
elements. -/
def npMean (xs : List ℚ) : ℚ := xs.sum / xs.length

/-- The population variance computed by `np.std(rewards)` with numpy's default
`ddof=0`: mean squared deviation from the mean, dividing by the length `n`
(not `n - 1`).  `np.std` returns the square root of this quantity; since the
square root of a rational is irrational in general we record the variance and
characterize the standard deviation by `IsPopStd`. -/
def npVar (xs : List ℚ) : ℚ :=
  (xs.map (fun x => (x - npMean xs) ^ 2)).sum / xs.length

/-- `s` is the population standard deviation of `xs`: nonnegative and squaring
to the population variance. -/
def IsPopStd (xs : List ℚ) (s : ℚ) : Prop := 0 ≤ s ∧ s * s = npVar xs

instance instDecIsPopStd (xs : List ℚ) (s : ℚ) : Decidable (IsPopStd xs s) :=
  inferInstanceAs (Decidable (0 ≤ s ∧ s * s = npVar xs))

/-- The reward list collected by the inner sampling loop:
`rewards = []; for i in range(N_RUNS): ... rewards.append(reward)`, where the
reward of run `i` is supplied by the (external) `evaluate_policy`. -/
def evalLayoutRewards (runReward : Nat → ℚ) (nRuns : Nat) : List ℚ :=
  (List.range nRuns).map runReward

/-- The per-layout aggregate computed after the loop completes:
`mean_reward = np.mean(rewards); std_reward = np.std(rewards)`.  Both are
computed from the full collection only after all `nRuns` runs; we return
(mean, population variance), the standard deviation being the square root of
the second component. -/
def evalLayoutStats (runReward : Nat → ℚ) (nRuns : Nat) : ℚ × ℚ :=
  let rewards := evalLayoutRewards runReward nRuns
  (npMean rewards, npVar rewards)

/- ### Layouts, artifact paths, and per-layout result tuples -/

/-- The `test_layouts` list of the generalization cells. -/
def test_layouts : List String :=
  ["cramped_room", "asymmetric_advantages", "forced_coordination"]

/-- The greedy sweep's artifact path:
`gif_path = f"demo/generalization/{layout}_eval_greedy.gif"`. -/
def greedyGifPath (layout : String) : String :=
  "demo/generalization/" ++ layout ++ "_eval_greedy.gif"

/-- The path the sampling loop saves run 0's GIF under:
`f"demo/generalization/{layout}_eval_sampling.gif"`. -/
def savedSamplingGifPath (layout : String) : String :=
  "demo/generalization/" ++ layout ++ "_eval_sampling.gif"

/-- The path the sampling loop *stores* in `results_sampling`:
`f"generalization/{layout}/eval_sampling.gif"` (note: not the same string as
`savedSamplingGifPath`). -/
def storedSamplingGifPath (layout : String) : String :=
  "generalization/" ++ layout ++ "/eval_sampling.gif"

/-- The body of the greedy GIF listing loop: `print(f"Layout: cramped_room")`.
The f-string contains no placeholder, so the printed line ignores `layout`. -/
def greedyGifListingLine (_layout : String) : String := "Layout: cramped_room"

/-- An entry of `results_greedy`: the tuple `(layout, reward, gif_path)`. -/
structure GreedyResult where
  layout : String
  reward : ℚ
  gifPath : String
  deriving DecidableEq, Repr

/-- An entry of `results_sampling`: the tuple
`(layout, mean_reward, std_reward, gif_path)`.  We store the population
variance (`std_reward` squared) in place of `std_reward`, since the standard
deviation is irrational in general; see `IsPopStd`. -/
structure SamplingResult where
  layout : String
  meanReward : ℚ
  varReward : ℚ
  gifPath : String
  deriving DecidableEq, Repr

/- ### The sweeps -/

/-- The greedy sweep: `for layout in test_layouts: ... results_greedy.append(
(layout, reward, gif_path))`.  The reward produced by the external
`evaluate_policy` for each layout is abstracted as `evalReward`. -/
def sweepGreedy (evalReward : String → ℚ) (layouts : List String) :
    List GreedyResult :=
  layouts.foldl
    (fun results layout =>
      results ++ [{ layout := layout, reward := evalReward layout,
                    gifPath := greedyGifPath layout }]) []

/-- The sampling sweep: `for layout in test_layouts:` run `N_RUNS` episodes,
then `results_sampling.append((layout, mean_reward, std_reward,
f"generalization/{layout}/eval_sampling.gif"))`.  `runReward layout i` is the
external `evaluate_policy`'s total reward for run `i` on `layout`. -/
def sweepSampling (runReward : String → Nat → ℚ) (nRuns : Nat)
    (layouts : List String) : List SamplingResult :=
  layouts.foldl
    (fun results layout =>
      results ++ [{ layout := layout,
                    meanReward := (evalLayoutStats (runReward layout) nRuns).1,
                    varReward := (evalLayoutStats (runReward layout) nRuns).2,
                    gifPath := storedSamplingGifPath layout }]) []

/-- The greedy sweep loop when weight loading can fail.  The notebook calls
`agent.policy.load_weights(...)` / `agent.value.load_weights(...)` inside the
loop body with no `try`/`except`: a raised exception (e.g. a missing
checkpoint file, abstracted as `loadOk layout = false`) propagates out of the
loop, so iteration stops at the failing layout.  Returns the results appended
before the failure together with the layout whose load raised (if any). -/
def sweepGreedyWithLoad (loadOk : String → Bool) (evalReward : String → ℚ) :
    List String → List GreedyResult × Option String
  | [] => ([], none)
  | layout :: rest =>
    if loadOk layout then
      let r := sweepGreedyWithLoad loadOk evalReward rest
      ({ layout := layout, reward := evalReward layout,
         gifPath := greedyGifPath layout } :: r.1, r.2)
    else
      ([], some layout)

/- ### Greedy action selection -/

/-- Modelled from the spec: the notebook imports `evaluate_policy` from
`training.evaluate_selfplay`, whose source is not part of this snapshot; per
the spec, GREEDY mode must "deterministically pick the action with the highest
probability in the distribution; ties broken by lowest action index".
`greedyAction dist` is the least index of a maximal entry of `dist` (and `0`
on the empty list). -/
def greedyAction : List ℚ → Nat
  | [] => 0
  | [_] => 0
  | p :: q :: rest =>
    let j := greedyAction (q :: rest)
    if p < (q :: rest).getD j 0 then j + 1 else 0

/- ### Construction order: environments, agents, weight loading, episodes -/

/-- The interface of the external `GeneralizedOvercooked` environment as the
notebook uses it: `env.observation_space.shape[0]` and `env.action_space.n`. -/
structure GeneralizedOvercooked where
  obsDim : Nat
  actDim : Nat
  deriving DecidableEq, Repr

/-- The `PPOAgent` constructor arguments as the notebook passes them:
`PPOAgent(obs_dim, act_dim, arch_variant='deep', use_reward_shaping=True,
use_decay=True)`. -/
structure PPOAgent where
  obsDim : Nat
  actDim : Nat
  archVariant : String
  useRewardShaping : Bool
  useDecay : Bool
  deriving DecidableEq, Repr

/-- The agent-construction code shared verbatim by all three evaluation cells:
`env = GeneralizedOvercooked([layout]); obs_dim = env.observation_space.shape[0];
act_dim = env.action_space.n; agent = PPOAgent(obs_dim, act_dim,
arch_variant='deep', use_reward_shaping=True, use_decay=True)`.  `envFor`
abstracts the external environment factory.  Returns the (environment, agent)
pair the cell goes on to use. -/
def mkAgentForLayout (envFor : String → GeneralizedOvercooked)
    (layout : String) : GeneralizedOvercooked × PPOAgent :=
  let env := envFor layout
  let obs_dim := env.obsDim
  let act_dim := env.actDim
  (env, { obsDim := obs_dim, actDim := act_dim, archVariant := "deep",
          useRewardShaping := true, useDecay := true })

/-- The externally observable calls a notebook cell makes, with constructed
objects identified by allocation ids so that object identity across calls is
explicit. -/
inductive Event where
  | mkEnv (envId : Nat) (layout : String)
  | mkAgent (agentId : Nat) (layout : String)
  | loadPolicyWeights (agentId : Nat)
  | loadValueWeights (agentId : Nat)
  | runEpisode (agentId : Nat) (envId : Nat) (runIdx : Nat)
      (saveGif : Bool) (gifPath : Option String)
  deriving DecidableEq, Repr

/-- `save_gif=(i == 0)` in the sampling loop's `evaluate_policy` call. -/
def runSaveGif (i : Nat) : Bool := i == 0

/-- `gif_path = f"demo/generalization/{layout}_eval_sampling.gif" if i == 0
else None` in the sampling loop. -/
def runGifPath (layout : String) (i : Nat) : Option String :=
  if i == 0 then some (savedSamplingGifPath layout) else none

/-- The event trace of one iteration of the sampling sweep's outer loop: build
the environment, build the agent, run the dummy forward passes and load the
policy and value weights, then call `evaluate_policy` once per `i in
range(N_RUNS)` on the same agent/environment pair.  `nextId` is the next free
allocation id; the returned `Nat` is the next free id afterwards. -/
def samplingLayoutTrace (nextId : Nat) (layout : String) (nRuns : Nat) :
    List Event × Nat :=
  let envId := nextId
  let agentId := nextId + 1
  ([Event.mkEnv envId layout, Event.mkAgent agentId layout,
    Event.loadPolicyWeights agentId, Event.loadValueWeights agentId] ++
      (List.range nRuns).map (fun i =>
        Event.runEpisode agentId envId i (runSaveGif i) (runGifPath layout i)),
   nextId + 2)

/-- The event trace of one greedy evaluation (the single-layout cell and each
iteration of the greedy sweep have the same shape): environment, agent, weight
loads, then a single `evaluate_policy(agent, env, greedy=True, save_gif=True,
gif_path=...)` call. -/
def greedyLayoutTrace (nextId : Nat) (layout : String) : List Event × Nat :=
  ([Event.mkEnv nextId layout, Event.mkAgent (nextId + 1) layout,
    Event.loadPolicyWeights (nextId + 1), Event.loadValueWeights (nextId + 1),
    Event.runEpisode (nextId + 1) nextId 0 true (some (greedyGifPath layout))],
   nextId + 2)

/-- Whether an event is an environment construction. -/
def isMkEnvEvent : Event → Bool
  | Event.mkEnv _ _ => true
  | _ => false

/-- Whether an event is an agent construction. -/
def isMkAgentEvent : Event → Bool
  | Event.mkAgent _ _ => true
  | _ => false

/-- Whether an event is a weight load. -/
def isLoadEvent : Event → Bool
  | Event.loadPolicyWeights _ => true
  | Event.loadValueWeights _ => true
  | _ => false

/-- Whether an event is an `evaluate_policy` (episode) call. -/
def isRunEvent : Event → Bool
  | Event.runEpisode _ _ _ _ _ => true
  | _ => false

/- ### Theorems -/

/-- Folding list-append of singletons is `List.map`. -/
theorem foldl_append_singleton {α β : Type} (g : β → α) :
    ∀ (ls : List β) (acc : List α),
      ls.foldl (fun a b => a ++ [g b]) acc = acc ++ ls.map g
  | [], _ => by simp
  | b :: ls, acc => by
    simp [List.foldl_cons, foldl_append_singleton g ls]

/-- **C1.** In sampled mode the per-layout statistics are the arithmetic mean
and the population standard deviation (dividing by `num_runs`, not
`num_runs - 1`) of the `num_runs` collected total rewards, computed after all
runs complete.  On the spec's example, `num_runs = 10` with rewards
`[2,2,2,2,2,2,2,2,2,20]`: the mean is `19/5 = 3.8` and the population standard
deviation is `27/5 = 5.4` exactly (its square is the population variance
`729/25 = 29.16`). -/
theorem c1_sampled_mode_statistics :
    evalLayoutRewards (fun i => if i = 9 then 20 else 2) 10 =
        [2, 2, 2, 2, 2, 2, 2, 2, 2, 20] ∧
    evalLayoutStats (fun i => if i = 9 then 20 else 2) 10 = (19 / 5, 729 / 25) ∧
    npMean [2, 2, 2, 2, 2, 2, 2, 2, 2, 20] = 19 / 5 ∧
    IsPopStd [2, 2, 2, 2, 2, 2, 2, 2, 2, 20] (27 / 5) := by
  have hr : evalLayoutRewards (fun i => if i = 9 then 20 else 2) 10 =
      [2, 2, 2, 2, 2, 2, 2, 2, 2, 20] := by
    simp [evalLayoutRewards, List.range_succ]
  refine ⟨hr, ?_, ?_, ?_⟩
  · rw [evalLayoutStats, hr]
    norm_num [npMean, npVar]
  · norm_num [npMean]
  · refine ⟨by norm_num, ?_⟩
    norm_num [npVar, npMean]

/-- **C2.** For the degenerate case `num_runs = 1` the aggregation yields mean
equal to the single run's reward and population standard deviation exactly `0`;
all operations are total (division by the length `1`), so no division error can
arise. -/
theorem c2_single_run_degenerate (r : ℚ) :
    evalLayoutRewards (fun _ => r) 1 = [r] ∧
    evalLayoutStats (fun _ => r) 1 = (r, 0) ∧
    IsPopStd [r] 0 := by
  refine ⟨by simp [evalLayoutRewards], ?_, ?_⟩
  · simp [evalLayoutStats, evalLayoutRewards, npMean, npVar]
  · exact ⟨le_refl 0, by simp [npVar, npMean]⟩

/-- **C3.** Both sweeps produce exactly one result per input layout, in the
input order: the list of layout names of the results equals the input layout
list (in particular for `["A","B","C"]` results come back in order
`[A, B, C]`). -/
theorem c3_sweep_preserves_order (f : String → ℚ) (g : String → Nat → ℚ)
    (nRuns : Nat) (layouts : List String) :
    (sweepGreedy f layouts).map GreedyResult.layout = layouts ∧
    (sweepSampling g nRuns layouts).map SamplingResult.layout = layouts := by
  have hg : sweepGreedy f layouts =
      layouts.map (fun l => GreedyResult.mk l (f l) (greedyGifPath l)) := by
    have h := foldl_append_singleton
      (fun l => GreedyResult.mk l (f l) (greedyGifPath l)) layouts []
    simpa [sweepGreedy] using h
  have hs : sweepSampling g nRuns layouts =
      layouts.map (fun l => SamplingResult.mk l
        (evalLayoutStats (g l) nRuns).1 (evalLayoutStats (g l) nRuns).2
        (storedSamplingGifPath l)) := by
    have h := foldl_append_singleton
      (fun l => SamplingResult.mk l (evalLayoutStats (g l) nRuns).1
        (evalLayoutStats (g l) nRuns).2 (storedSamplingGifPath l)) layouts []
    simpa [sweepSampling] using h
  constructor
  · rw [hg]; simp [List.map_map, Function.comp_def]
  · rw [hs]; simp [List.map_map, Function.comp_def]

/-- **C4, counterexample.** The claim says a failure on one layout is reported
per-layout and the remaining layouts are still evaluated.  In the notebook a
`load_weights` failure aborts the whole loop: sweeping `["A","B","C"]` where
loading fails on `"B"` produces no result for `"C"` - the sweep stops at
`"B"`. -/
theorem c4_counterexample :
    ("C" ∉ ((sweepGreedyWithLoad (fun l => l != "B") (fun _ => 0)
        ["A", "B", "C"]).1.map GreedyResult.layout)) ∧
    (sweepGreedyWithLoad (fun l => l != "B") (fun _ => 0)
        ["A", "B", "C"]).2 = some "B" := by
  constructor
  · simp [sweepGreedyWithLoad]
  · simp [sweepGreedyWithLoad]

/-- **C4, amended.** A failure to evaluate one layout (weight loading raises)
aborts the sweep at that layout: the layouts before the first failure keep
their results, the failing layout is the reported error, and no later layout
is evaluated.  There is no fail-fast configuration option - aborting is the
only behavior. -/
theorem c4_sweep_aborts_at_first_failure (loadOk : String → Bool)
    (evalReward : String → ℚ) (pre : List String) (bad : String)
    (post : List String) (hpre : ∀ l ∈ pre, loadOk l = true)
    (hbad : loadOk bad = false) :
    sweepGreedyWithLoad loadOk evalReward (pre ++ bad :: post) =
      (pre.map (fun l => { layout := l, reward := evalReward l,
                           gifPath := greedyGifPath l }),
       some bad) := by
  induction pre with
  | nil => simp [sweepGreedyWithLoad, hbad]
  | cons p ps ih =>
    have hp : loadOk p = true := hpre p (by simp)
    have hps : ∀ l ∈ ps, loadOk l = true := fun l hl => hpre l (by simp [hl])
    simp [sweepGreedyWithLoad, hp, ih hps]

/-- Witness for `c4_sweep_aborts_at_first_failure` at the concrete sweep
`["A","B","C"]` with loading failing on `"B"`. -/
theorem c4_witness :
    sweepGreedyWithLoad (fun l => l != "B") (fun _ => (1 : ℚ))
        ["A", "B", "C"] =
      ([{ layout := "A", reward := 1, gifPath := greedyGifPath "A" }],
       some "B") :=
  c4_sweep_aborts_at_first_failure (fun l => l != "B") (fun _ => (1 : ℚ))
    ["A"] "B" ["C"] (by decide) (by decide)

/-- Unfolding `greedyAction` on a list of length at least two, when the head
is beaten by the best entry of the tail. -/
theorem greedyAction_cons_pos (p q : ℚ) (rest : List ℚ)
    (hc : p < (q :: rest).getD (greedyAction (q :: rest)) 0) :
    greedyAction (p :: q :: rest) = greedyAction (q :: rest) + 1 := by
  simp only [greedyAction]
  rw [if_pos hc]

/-- Unfolding `greedyAction` on a list of length at least two, when the head
is at least as large as the best entry of the tail. -/
theorem greedyAction_cons_neg (p q : ℚ) (rest : List ℚ)
    (hc : ¬p < (q :: rest).getD (greedyAction (q :: rest)) 0) :
    greedyAction (p :: q :: rest) = 0 := by
  simp only [greedyAction]
  rw [if_neg hc]

/-- `greedyAction` returns an index of a maximal entry. -/
theorem greedyAction_is_max : ∀ (d : List ℚ) (i : Nat), i < d.length →
    d.getD i 0 ≤ d.getD (greedyAction d) 0
  | [], i, h => absurd h (by simp)
  | [p], i, h => by
    have hi : i = 0 := Nat.lt_one_iff.mp (by simpa using h)
    subst hi
    simp [greedyAction]
  | p :: q :: rest, i, h => by
    by_cases hc : p < (q :: rest).getD (greedyAction (q :: rest)) 0
    · rw [greedyAction_cons_pos p q rest hc]
      cases i with
      | zero =>
        simp only [List.getD_cons_zero, List.getD_cons_succ]
        exact le_of_lt hc
      | succ i2 =>
        have h2 : i2 < (q :: rest).length := by simpa using h
        simp only [List.getD_cons_succ]
        exact greedyAction_is_max (q :: rest) i2 h2
    · rw [greedyAction_cons_neg p q rest hc]
      push_neg at hc
      cases i with
      | zero => simp
      | succ i2 =>
        have h2 : i2 < (q :: rest).length := by simpa using h
        have hle := greedyAction_is_max (q :: rest) i2 h2
        simp only [List.getD_cons_succ, List.getD_cons_zero]
        exact hle.trans hc

/-- Every index below `greedyAction d` holds a strictly smaller entry: among
tied maxima the lowest index wins. -/
theorem greedyAction_lowest_tie : ∀ (d : List ℚ) (i : Nat),
    i < greedyAction d → d.getD i 0 < d.getD (greedyAction d) 0
  | [], i, h => absurd h (by simp [greedyAction])
  | [p], i, h => absurd h (by simp [greedyAction])
  | p :: q :: rest, i, h => by
    by_cases hc : p < (q :: rest).getD (greedyAction (q :: rest)) 0
    · rw [greedyAction_cons_pos p q rest hc] at h ⊢
      cases i with
      | zero =>
        simp only [List.getD_cons_zero, List.getD_cons_succ]
        exact hc
      | succ i2 =>
        have h2 : i2 < greedyAction (q :: rest) := by omega
        simp only [List.getD_cons_succ]
        exact greedyAction_lowest_tie (q :: rest) i2 h2
    · rw [greedyAction_cons_neg p q rest hc] at h
      exact absurd h (Nat.not_lt_zero i)

/-- On a nonempty list the selected index is in range. -/
theorem greedyAction_lt_length : ∀ (d : List ℚ), d ≠ [] →
    greedyAction d < d.length
  | [], h => absurd rfl h
  | [p], _ => by simp [greedyAction]
  | p :: q :: rest, _ => by
    by_cases hc : p < (q :: rest).getD (greedyAction (q :: rest)) 0
    · rw [greedyAction_cons_pos p q rest hc]
      have hlt := greedyAction_lt_length (q :: rest) (by simp)
      simp only [List.length_cons] at hlt ⊢
      omega
    · rw [greedyAction_cons_neg p q rest hc]
      simp

/-- **C5.** GREEDY-mode action selection is deterministic and picks the
highest-probability action, breaking ties by lowest action index: for any
nonempty distribution, identical inputs give identical outputs (the selection
is a pure function), the selected index is a valid action, every entry is at
most the selected one, and every index below the selected one holds a strictly
smaller probability. -/
theorem c5_greedy_deterministic_argmax (d : List ℚ) (hne : d ≠ []) :
    (∀ d2, d2 = d → greedyAction d2 = greedyAction d) ∧
    greedyAction d < d.length ∧
    (∀ i, i < d.length → d.getD i 0 ≤ d.getD (greedyAction d) 0) ∧
    (∀ i, i < greedyAction d → d.getD i 0 < d.getD (greedyAction d) 0) :=
  ⟨fun _ h => by rw [h], greedyAction_lt_length d hne,
   fun i hi => greedyAction_is_max d i hi,
   fun i hi => greedyAction_lowest_tie d i hi⟩

/-- Witness for `c5_greedy_deterministic_argmax` on the concrete distribution
`[1/10, 7/10, 7/10, 1/10]`. -/
theorem c5_witness :
    greedyAction [(1 : ℚ) / 10, 7 / 10, 7 / 10, 1 / 10] < 4 :=
  (c5_greedy_deterministic_argmax [(1 : ℚ) / 10, 7 / 10, 7 / 10, 1 / 10]
    (List.cons_ne_nil _ _)).2.1

/-- A list of `runEpisode` events contains no event satisfying a predicate
that is false on every `runEpisode`. -/
theorem runEvents_filter_none (p : Event → Bool)
    (hp : ∀ a v i b g, p (Event.runEpisode a v i b g) = false)
    (aId vId : Nat) (layout : String) (n : Nat) :
    ((List.range n).map (fun i =>
        Event.runEpisode aId vId i (runSaveGif i) (runGifPath layout i))).filter
      p = [] := by
  rw [List.filter_eq_nil_iff]
  intro e he
  simp only [List.mem_map] at he
  obtain ⟨i, _, rfl⟩ := he
  simp [hp]

/-- A list of `runEpisode` events is fixed by filtering with a predicate that
is true on every `runEpisode`. -/
theorem runEvents_filter_all (p : Event → Bool)
    (hp : ∀ a v i b g, p (Event.runEpisode a v i b g) = true)
    (aId vId : Nat) (layout : String) (n : Nat) :
    ((List.range n).map (fun i =>
        Event.runEpisode aId vId i (runSaveGif i) (runGifPath layout i))).filter
      p =
      (List.range n).map (fun i =>
        Event.runEpisode aId vId i (runSaveGif i) (runGifPath layout i)) := by
  rw [List.filter_eq_self]
  intro e he
  simp only [List.mem_map] at he
  obtain ⟨i, _, rfl⟩ := he
  simp [hp]

/-- **C6.** Each iteration of the sampling sweep constructs exactly one
environment and exactly one agent (per layout, not per run), and every one of
the `nRuns` `evaluate_policy` calls of that iteration is made against that
same agent/environment pair. -/
theorem c6_one_agent_one_env_per_layout (nextId : Nat) (layout : String)
    (nRuns : Nat) :
    ((samplingLayoutTrace nextId layout nRuns).1.filter isMkEnvEvent =
        [Event.mkEnv nextId layout] ∧
     (samplingLayoutTrace nextId layout nRuns).1.filter isMkAgentEvent =
        [Event.mkAgent (nextId + 1) layout]) ∧
    ∀ a v i b g,
      Event.runEpisode a v i b g ∈ (samplingLayoutTrace nextId layout nRuns).1 →
        a = nextId + 1 ∧ v = nextId := by
  refine ⟨⟨?_, ?_⟩, ?_⟩
  · simp only [samplingLayoutTrace, List.filter_append]
    rw [runEvents_filter_none isMkEnvEvent (fun _ _ _ _ _ => rfl)]
    simp [List.filter_cons, isMkEnvEvent]
  · simp only [samplingLayoutTrace, List.filter_append]
    rw [runEvents_filter_none isMkAgentEvent (fun _ _ _ _ _ => rfl)]
    simp [List.filter_cons, isMkAgentEvent]
  · intro a v i b g hmem
    simp only [samplingLayoutTrace, List.mem_append, List.mem_cons,
      List.not_mem_nil, or_false, List.mem_map] at hmem
    rcases hmem with (h | h | h | h) | ⟨i2, _, heq⟩
    · exact absurd h (by simp)
    · exact absurd h (by simp)
    · exact absurd h (by simp)
    · exact absurd h (by simp)
    · simp only [Event.runEpisode.injEq] at heq
      exact ⟨heq.1.symm, heq.2.1.symm⟩

/-- Witness for `c6_one_agent_one_env_per_layout` at allocation id `0`, layout
`"cramped_room"`, two runs, and the concrete second-run episode event. -/
theorem c6_witness :
    (samplingLayoutTrace 0 "cramped_room" 2).1.filter isMkEnvEvent =
        [Event.mkEnv 0 "cramped_room"] ∧
    (1 = 0 + 1 ∧ 0 = 0) :=
  ⟨(c6_one_agent_one_env_per_layout 0 "cramped_room" 2).1.1,
   (c6_one_agent_one_env_per_layout 0 "cramped_room" 2).2 1 0 1 false none
     (by simp [samplingLayoutTrace, List.range_succ, runSaveGif, runGifPath])⟩

/-- **C7.** In the sampling loop, frame capture is requested only for run
index `0`: run `0` is called with `save_gif=True` and the layout's sampling
GIF path, while every run with index `i > 0` is called with `save_gif=False`
and `gif_path=None`. -/
theorem c7_gif_only_first_run (layout : String) (i : Nat) (h : 0 < i) :
    runSaveGif i = false ∧ runGifPath layout i = none ∧
    runSaveGif 0 = true ∧
    runGifPath layout 0 = some (savedSamplingGifPath layout) := by
  obtain ⟨j, rfl⟩ : ∃ j, i = j + 1 := ⟨i - 1, by omega⟩
  exact ⟨rfl, rfl, rfl, rfl⟩

/-- Witness for `c7_gif_only_first_run` at layout `"cramped_room"`, run `1`. -/
theorem c7_witness :
    runSaveGif 1 = false ∧ runGifPath "cramped_room" 1 = none ∧
    runSaveGif 0 = true ∧
    runGifPath "cramped_room" 0 = some (savedSamplingGifPath "cramped_room") :=
  c7_gif_only_first_run "cramped_room" 1 (by decide)

/-- **C8, divergence.** The reporting surface does not faithfully reflect the
evaluation: the path stored in a layout's `results_sampling` tuple
(`generalization/{layout}/eval_sampling.gif`) differs from the path the
first-run GIF was saved under (`demo/generalization/{layout}_eval_sampling.gif`),
and the greedy GIF listing prints the literal `Layout: cramped_room` for every
layout instead of the layout's own name. -/
theorem c8_reporting_mismatch :
    storedSamplingGifPath "asymmetric_advantages" ≠
      savedSamplingGifPath "asymmetric_advantages" ∧
    greedyGifListingLine "asymmetric_advantages" ≠
      "Layout: asymmetric_advantages" ∧
    storedSamplingGifPath "cramped_room" ≠ savedSamplingGifPath "cramped_room" := by
  refine ⟨by decide, by decide, by decide⟩

/-- **C9.** Weight loading completes before any episode runs: in the
per-layout event trace, restricted to weight-load and episode events, both
load events precede every `evaluate_policy` call — in the sampling iteration
as well as in a greedy evaluation.  A configuration error raised by
`load_weights` therefore occurs before any episode step executes. -/
theorem c9_weights_loaded_before_any_episode (nextId : Nat) (layout : String)
    (nRuns : Nat) :
    (samplingLayoutTrace nextId layout nRuns).1.filter
        (fun e => isLoadEvent e || isRunEvent e) =
      Event.loadPolicyWeights (nextId + 1) :: Event.loadValueWeights (nextId + 1) ::
        (List.range nRuns).map (fun i =>
          Event.runEpisode (nextId + 1) nextId i (runSaveGif i)
            (runGifPath layout i)) ∧
    (greedyLayoutTrace nextId layout).1.filter
        (fun e => isLoadEvent e || isRunEvent e) =
      [Event.loadPolicyWeights (nextId + 1), Event.loadValueWeights (nextId + 1),
       Event.runEpisode (nextId + 1) nextId 0 true (some (greedyGifPath layout))] := by
  constructor
  · simp only [samplingLayoutTrace, List.filter_append]
    rw [runEvents_filter_all (fun e => isLoadEvent e || isRunEvent e)
      (fun _ _ _ _ _ => rfl)]
    simp [List.filter_cons, isLoadEvent, isRunEvent]
  · simp [greedyLayoutTrace, List.filter_cons, isLoadEvent, isRunEvent]

/-- **C10.** In every evaluation cell the agent is constructed with
`obs_dim = env.observation_space.shape[0]` and `act_dim = env.action_space.n`
read from the freshly created environment, so the constructed agent's
input/output dimensions equal the environment's by construction, for every
layout and every environment factory; a mismatch can only come from the
loaded weight file. -/
theorem c10_agent_dims_from_env (envFor : String → GeneralizedOvercooked)
    (layout : String) :
    (mkAgentForLayout envFor layout).2.obsDim = (envFor layout).obsDim ∧
    (mkAgentForLayout envFor layout).2.actDim = (envFor layout).actDim ∧
    (mkAgentForLayout envFor layout).1 = envFor layout :=
  ⟨rfl, rfl, rfl⟩
